import Mathlib

/-!
# The Platform asset of the installer (`pkg/asset/installconfig/platform.go`)

A shallow embedding of the Platform asset and of the collaborators it calls,
followed by the properties of its `Generate` method.

* Go strings and `[]byte` values are finite sequences of bytes.
* A Go function returning `(*State, error)` returns a pair of nilable values.
* A run-time panic (nil dereference, index out of range) is an explicit outcome.
* Every call of the prompt resolver is recorded, in order, next to the outcome.
-/

namespace installconfig

/-! ## Strings and bytes -/

/-- One byte. -/
abbrev Byte := Fin 256

/-- A Go `string`: an immutable sequence of bytes (not necessarily valid UTF-8). -/
abbrev GoString := List Byte

/-- A Go `[]byte`. -/
abbrev Bytes := List Byte

/-- The conversion `[]byte(d)`: the bytes of the string, in order. -/
def bytesOfString (d : GoString) : Bytes := d

/-- The conversion `string(b)`: the string made of the bytes, in order. -/
def stringOfBytes (b : Bytes) : GoString := b

/-- UTF-8 encoding of one code point, as the Go compiler stores the characters of a
string constant. -/
def utf8EncodeRune (r : Nat) : List Byte :=
  if r < 0x80 then
    [Fin.ofNat r]
  else if r < 0x800 then
    [Fin.ofNat (0xC0 + r / 0x40), Fin.ofNat (0x80 + r % 0x40)]
  else if r < 0x10000 then
    [Fin.ofNat (0xE0 + r / 0x1000), Fin.ofNat (0x80 + r / 0x40 % 0x40),
      Fin.ofNat (0x80 + r % 0x40)]
  else
    [Fin.ofNat (0xF0 + r / 0x40000), Fin.ofNat (0x80 + r / 0x1000 % 0x40),
      Fin.ofNat (0x80 + r / 0x40 % 0x40), Fin.ofNat (0x80 + r % 0x40)]

/-- The Go string denoted by a string constant of the source text. -/
def lit (s : String) : GoString :=
  s.toList.flatMap (fun c => utf8EncodeRune c.toNat)

/-- The byte of the separator string `" "`. -/
def SP : Byte := 32

/-! ## The part of package `strings` the asset uses -/

/-- Go `strings.IndexByte(s, c)`: position of the first `c` in `s`; `none` stands for
`-1`. -/
def IndexByte : GoString → Byte → Option Nat
  | [], _ => none
  | b :: rest, c => if b = c then some 0 else (IndexByte rest c).map (· + 1)

/-- Go `strings.Count(s, sep)` for a separator of length one: the number of bytes of
`s` equal to the separator byte. -/
def Count : GoString → Byte → Nat
  | [], _ => 0
  | b :: rest, c => (if b = c then 1 else 0) + Count rest c

/-- The loop of Go `strings.genSplit` for a separator of length one. The first
argument is the number of iterations left (`n - i` once `n` was decremented); the
result is the slice `a[:i+1]` from position `i` on. -/
def genSplitLoop (sep : Byte) : Nat → GoString → List GoString
  | 0, s => [s]
  | n + 1, s =>
    match IndexByte s sep with
    | none => [s]
    | some m => s.take m :: genSplitLoop sep n (s.drop (m + 1))

/-- Go `strings.Split(s, sep)` for a separator string of length one, given by its
byte: `genSplit(s, sep, 0, -1)` with `n = Count(s, sep) + 1`. -/
def Split (s : GoString) (sep : Byte) : List GoString :=
  genSplitLoop sep (Count s sep) s

/-! ## Package `asset`: the content model and the prompt resolver -/

/-- Modelled from the spec: the type `asset.Content`, declared outside this file. One
value of a State: an ordered byte sequence `Data` and an optional human-readable
name (empty when there is none). -/
structure Content where
  Name : GoString
  Data : Bytes
  deriving DecidableEq, Repr

/-- Modelled from the spec: the type `asset.State`, declared outside this file. The
ordered sequence of Content values produced by one Generate call. -/
structure State where
  Contents : List Content
  deriving DecidableEq, Repr

/-- A Go `error` value that is not nil. -/
structure GoError where
  msg : GoString
  deriving DecidableEq, Repr

/-- The interactive questions of package `survey` the asset builds: `survey.Select`
and `survey.Input`, with the fields the asset sets (the others keep their zero
value). -/
inductive Prompt where
  | Select (Message Help Default : GoString) (Options : List GoString)
  | Input (Message Help Default : GoString)
  deriving DecidableEq, Repr

/-- The struct `asset.UserProvided`: a prompt specification and the name of its
override variable. -/
structure UserProvided where
  Prompt : Prompt
  EnvVarName : GoString
  deriving DecidableEq, Repr

/-- The identity of an asset, the key of the dependency mapping. -/
abbrev AssetRef := Nat

/-- The Go type `map[asset.Asset]*asset.State`; `[]` is the nil map. -/
abbrev DepStates := List (AssetRef × Option State)

/-- What surrounds one run: the process environment, the operator behind the
interactive layer, and the library function behind the `%q` verb. -/
structure Env where
  /-- Go `os.LookupEnv`: the value of a variable, `none` when it is not set. -/
  LookupEnv : GoString → Option GoString
  /-- The interactive layer (`survey.AskOne`): the captured value (the layer applies
  the default of the prompt itself), or the error of a capture that is not possible. -/
  AskOne : Prompt → Except GoError GoString
  /-- Go `strconv.Quote`. -/
  Quote : GoString → GoString

/-- Modelled from the spec: the method `asset.UserProvided.Generate`, whose code is
outside this file. An override variable that is set and non-empty is used verbatim
and skips the interaction; otherwise the interactive layer is asked. The output is a
single-Content State wrapping the resolved string; a failure of the capture is
returned as the error, with no State. -/
def UserProvided.Generate (env : Env) (a : UserProvided) (_ : DepStates) :
    Option State × Option GoError :=
  match env.LookupEnv a.EnvVarName with
  | some (b :: rest) => (some ⟨[⟨[], bytesOfString (b :: rest)⟩]⟩, none)
  | _ =>
    match env.AskOne a.Prompt with
    | .ok response => (some ⟨[⟨[], bytesOfString response⟩]⟩, none)
    | .error err => (none, some err)

/-! ## Outcomes of a call -/

/-- A run-time panic of the Go program. -/
inductive Panic where
  | nilDereference
  | indexOutOfRange (index length : Nat)
  deriving DecidableEq, Repr

/-- What a call did: the prompt resolutions it performed, in order, and how it
ended, by returning a value or by a panic. -/
structure Exec (α : Type) where
  resolved : List UserProvided
  outcome : Except Panic α

/-! ## `platform.go` -/

/-- AWSPlatformType is used to install on AWS. -/
def AWSPlatformType : GoString := lit "aws"

/-- LibvirtPlatformType is used to install of libvirt. -/
def LibvirtPlatformType : GoString := lit "libvirt"

/-- The package variable `validPlatforms`. -/
def validPlatforms : List GoString := [AWSPlatformType, LibvirtPlatformType]

/-- The assignment `c[i] = v` on a slice: the index is checked against the length. -/
def setIndex (c : List Content) (i : Nat) (v : Content) : Except Panic (List Content) :=
  if i < c.length then .ok (c.set i v) else .error (.indexOutOfRange i c.length)

/-- The range loop of `assetStateForStringContents` over the pairs `(i, d)` still to
visit: `c[i] = asset.Content{Data: []byte(d)}`. -/
def assetStateForStringContents.loop :
    List (Nat × GoString) → List Content → Except Panic (List Content)
  | [], c => .ok c
  | (i, d) :: rest, c =>
    match setIndex c i ⟨[], bytesOfString d⟩ with
    | .error p => .error p
    | .ok c1 => assetStateForStringContents.loop rest c1

/-- The function `assetStateForStringContents(s ...string)`: a slice of `len(s)` zero
Contents is made, the range loop fills it, and a State holding it is returned. -/
def assetStateForStringContents (s : List GoString) : Except Panic State :=
  let c : List Content := List.replicate s.length ⟨[], []⟩
  match assetStateForStringContents.loop s.enum c with
  | .error p => .error p
  | .ok c1 => .ok ⟨c1⟩

/-- Method `Dependencies`: returns no dependencies. -/
def Platform.Dependencies : List AssetRef := []

/-- Method `Name`: the human-friendly name of the asset. -/
def Platform.Name : GoString := lit "Platform"

/-- Go `fmt.Errorf(format, a)` for a format made of literal text followed by one
`%q` verb: the text, then the quoted form of the argument. -/
def fmtErrorf (env : Env) (text : GoString) (a : GoString) : GoError :=
  ⟨text ++ env.Quote a⟩

/-- The prompt built by `queryUserForPlatform`. -/
def Platform.queryUserForPlatform.prompt : UserProvided :=
  ⟨Prompt.Select (lit "Platform") (lit "") (lit "") validPlatforms,
    lit "OPENSHIFT_INSTALL_PLATFORM"⟩

/-- Method `queryUserForPlatform`. -/
def Platform.queryUserForPlatform (env : Env) : Exec (GoString × Option GoError) :=
  let prompt := Platform.queryUserForPlatform.prompt
  match UserProvided.Generate env prompt [] with
  | (_, some err) => ⟨[prompt], .ok (lit "", some err)⟩
  | (none, none) => ⟨[prompt], .error .nilDereference⟩
  | (some platform, none) =>
    match platform.Contents[0]? with
    | none => ⟨[prompt], .error (.indexOutOfRange 0 platform.Contents.length)⟩
    | some c0 => ⟨[prompt], .ok (stringOfBytes c0.Data, none)⟩

/-- The options of the region prompt built by `awsPlatform`. -/
def Platform.awsPlatform.options : List GoString :=
  [ lit "us-east-2 (Ohio)",
    lit "us-east-1 (N. Virginia)",
    lit "us-west-1 (N. California)",
    lit "us-west-2 (Oregon)",
    lit "ap-south-1 (Mumbai)",
    lit "ap-northeast-2 (Seoul)",
    lit "ap-northeast-3 (Osaka-Local)",
    lit "ap-southeast-1 (Singapore)",
    lit "ap-southeast-2 (Sydney)",
    lit "ap-northeast-1 (Tokyo)",
    lit "ca-central-1 (Central)",
    lit "cn-north-1 (Beijing)",
    lit "cn-northwest-1 (Ningxia)",
    lit "eu-central-1 (Frankfurt)",
    lit "eu-west-1 (Ireland)",
    lit "eu-west-2 (London)",
    lit "eu-west-3 (Paris)",
    lit "sa-east-1 (São Paulo)" ]

/-- The default of the region prompt built by `awsPlatform`. -/
def Platform.awsPlatform.default : GoString := lit "us-east-1 (N. Virginia)"

/-- The prompt built by `awsPlatform`. -/
def Platform.awsPlatform.prompt : UserProvided :=
  ⟨Prompt.Select (lit "Region") (lit "The AWS region to be used for installation.")
      Platform.awsPlatform.default Platform.awsPlatform.options,
    lit "OPENSHIFT_INSTALL_AWS_REGION"⟩

/-- The expression `strings.Split(r, " ")[0]` of `awsPlatform`: element 0 of the
split, or the index-out-of-range panic when the split has no element. -/
def regionCode (r : GoString) : Except Panic GoString :=
  match (Split r SP)[0]? with
  | none => .error (.indexOutOfRange 0 (Split r SP).length)
  | some code => .ok code

/-- Method `awsPlatform`. -/
def Platform.awsPlatform (env : Env) : Exec (Option State × Option GoError) :=
  let prompt := Platform.awsPlatform.prompt
  match UserProvided.Generate env prompt [] with
  | (_, some err) => ⟨[prompt], .ok (none, some err)⟩
  | (none, none) => ⟨[prompt], .error .nilDereference⟩
  | (some region, none) =>
    match region.Contents[0]? with
    | none => ⟨[prompt], .error (.indexOutOfRange 0 region.Contents.length)⟩
    | some c0 =>
      match regionCode (stringOfBytes c0.Data) with
      | .error p => ⟨[prompt], .error p⟩
      | .ok code =>
        match assetStateForStringContents [AWSPlatformType, code] with
        | .error p => ⟨[prompt], .error p⟩
        | .ok st => ⟨[prompt], .ok (some st, none)⟩

/-- The prompt built by `libvirtPlatform`. -/
def Platform.libvirtPlatform.prompt : UserProvided :=
  ⟨Prompt.Input (lit "URI")
      (lit "The libvirt connection URI to be used. This must be accessible from the running cluster.")
      (lit "qemu+tcp://192.168.122.1/system"),
    lit "OPENSHIFT_INSTALL_LIBVIRT_URI"⟩

/-- Method `libvirtPlatform`. -/
def Platform.libvirtPlatform (env : Env) : Exec (Option State × Option GoError) :=
  let prompt := Platform.libvirtPlatform.prompt
  match UserProvided.Generate env prompt [] with
  | (_, some err) => ⟨[prompt], .ok (none, some err)⟩
  | (none, none) => ⟨[prompt], .error .nilDereference⟩
  | (some uri, none) =>
    match uri.Contents[0]? with
    | none => ⟨[prompt], .error (.indexOutOfRange 0 uri.Contents.length)⟩
    | some c0 =>
      match assetStateForStringContents [LibvirtPlatformType, stringOfBytes c0.Data] with
      | .error p => ⟨[prompt], .error p⟩
      | .ok st => ⟨[prompt], .ok (some st, none)⟩

/-- The rest of a call after the resolutions `before` were performed. -/
def Exec.after {α : Type} (before : List UserProvided) (e : Exec α) : Exec α :=
  ⟨before ++ e.resolved, e.outcome⟩

/-- Method `Generate`: queries for input from the user. The dependency mapping is
the unnamed parameter of the Go method. -/
def Platform.Generate (env : Env) (_ : DepStates) : Exec (Option State × Option GoError) :=
  match Platform.queryUserForPlatform env with
  | ⟨done, .error p⟩ => ⟨done, .error p⟩
  | ⟨done, .ok (_, some err)⟩ => ⟨done, .ok (none, some err)⟩
  | ⟨done, .ok (platform, none)⟩ =>
    if platform = AWSPlatformType then
      (Platform.awsPlatform env).after done
    else if platform = LibvirtPlatformType then
      (Platform.libvirtPlatform env).after done
    else
      ⟨done, .ok (none, some (fmtErrorf env (lit "unknown platform type ") platform))⟩

/-! ## Concrete environments -/

/-- Go `strconv.Quote` on the strings made of printable ASCII characters other than
the double quote and the backslash: the string between two double quotes. -/
def quotePlain (s : GoString) : GoString :=
  lit "\"" ++ s ++ lit "\""

/-- The error of an interactive layer that has no channel to the operator. -/
def noChannel : GoError := ⟨lit "no interactive channel"⟩

/-- A run with no override variable set, in which the interactive layer gives the
three prompts of the asset the given results. -/
def operatorEnv (platform region uri : Except GoError GoString) : Env :=
  ⟨fun _ => none,
    fun p =>
      if p = Platform.queryUserForPlatform.prompt.Prompt then platform
      else if p = Platform.awsPlatform.prompt.Prompt then region
      else uri,
    quotePlain⟩

/-- A scripted run: the three override variables have the given values (`none` for
a variable that is not set) and there is no channel to the operator. -/
def scriptedEnv (platform region uri : Option GoString) : Env :=
  ⟨fun name =>
      if name = Platform.queryUserForPlatform.prompt.EnvVarName then platform
      else if name = Platform.awsPlatform.prompt.EnvVarName then region
      else if name = Platform.libvirtPlatform.prompt.EnvVarName then uri
      else none,
    fun _ => .error noChannel,
    quotePlain⟩

/-! ## Vocabulary of the properties -/

/-- The resolution of the prompt `p` succeeds and yields the string `v`: the resolver
returns no error and a State whose first Content holds `v`. -/
def Resolves (env : Env) (p : UserProvided) (v : GoString) : Prop :=
  ∃ st c0, UserProvided.Generate env p [] = (some st, none) ∧
    st.Contents[0]? = some c0 ∧ stringOfBytes c0.Data = v

/-- The resolution of the prompt `p` fails with the error `e`. -/
def FailsWith (env : Env) (p : UserProvided) (e : GoError) : Prop :=
  (UserProvided.Generate env p []).2 = some e

/-- The string `c` is the part of `r` before the first space: it has no space, and
either it is all of `r` or it is followed by a space in `r`. -/
def BeforeFirstSpace (c r : GoString) : Prop :=
  SP ∉ c ∧ (c = r ∨ (c ++ [SP]) <+: r)

/-- The State whose Contents are the given strings, in order, without names. -/
def stateOfStrings (s : List GoString) : State :=
  ⟨s.map (fun d => ⟨[], bytesOfString d⟩)⟩

/-! ## Splitting -/

theorem IndexByte_none {s : GoString} {c : Byte} (h : IndexByte s c = none) : c ∉ s := by
  induction s with
  | nil => simp
  | cons b rest ih =>
    unfold IndexByte at h
    split at h
    · simp at h
    · rename_i hb
      simp only [Option.map_eq_none'] at h
      simp only [List.mem_cons, not_or]
      exact ⟨fun hc => hb hc.symm, ih h⟩

theorem IndexByte_some {s : GoString} {c : Byte} {m : Nat} (h : IndexByte s c = some m) :
    c ∉ s.take m ∧ (s.take m ++ [c]) <+: s := by
  induction s generalizing m with
  | nil => simp [IndexByte] at h
  | cons b rest ih =>
    unfold IndexByte at h
    split at h
    · rename_i hb
      simp only [Option.some.injEq] at h
      subst h
      subst hb
      simp
    · rename_i hb
      simp only [Option.map_eq_some'] at h
      obtain ⟨k, hk, rfl⟩ := h
      obtain ⟨h1, h2⟩ := ih hk
      refine ⟨?_, ?_⟩
      · simp only [List.take_succ_cons, List.mem_cons, not_or]
        exact ⟨fun hc => hb hc.symm, h1⟩
      · simp only [List.take_succ_cons, List.cons_append]
        exact (List.prefix_cons_inj b).mpr h2

theorem genSplitLoop_ne_nil (sep : Byte) (n : Nat) (s : GoString) :
    genSplitLoop sep n s ≠ [] := by
  cases n with
  | zero => simp [genSplitLoop]
  | succ n =>
    unfold genSplitLoop
    split <;> simp

theorem Split_ne_nil (s : GoString) (sep : Byte) : Split s sep ≠ [] :=
  genSplitLoop_ne_nil sep _ s

theorem Count_eq_zero {s : GoString} {c : Byte} (h : Count s c = 0) : c ∉ s := by
  induction s with
  | nil => simp
  | cons b rest ih =>
    unfold Count at h
    by_cases hb : b = c
    · simp [hb] at h
    · simp only [hb, if_false, Nat.zero_add] at h
      simp only [List.mem_cons, not_or]
      exact ⟨fun hc => hb hc.symm, ih h⟩

theorem IndexByte_takeWhile (s : GoString) (c : Byte) :
    match IndexByte s c with
    | none => s.takeWhile (fun b => b != c) = s
    | some m => s.take m = s.takeWhile (fun b => b != c) := by
  induction s with
  | nil => simp [IndexByte]
  | cons b rest ih =>
    unfold IndexByte
    by_cases hb : b = c
    · simp [hb]
    · simp only [hb, if_false]
      cases hi : IndexByte rest c with
      | none =>
        rw [hi] at ih
        simp only [Option.map_none']
        rw [List.takeWhile_cons]
        simp [hb, ih]
      | some m =>
        rw [hi] at ih
        simp only [Option.map_some']
        rw [List.takeWhile_cons]
        simp [hb, ih]

/-- Element 0 of the split on a byte is the longest prefix without that byte. -/
theorem Split_head (s : GoString) (sep : Byte) :
    (Split s sep)[0]? = some (s.takeWhile (fun b => b != sep)) := by
  unfold Split
  have key := IndexByte_takeWhile s sep
  cases hn : Count s sep with
  | zero =>
    have hmem := Count_eq_zero hn
    simp only [genSplitLoop, List.getElem?_cons_zero, Option.some.injEq]
    symm
    rw [List.takeWhile_eq_self_iff]
    intro b hb
    simp only [bne_iff_ne, ne_eq]
    intro h
    exact hmem (h ▸ hb)
  | succ n =>
    unfold genSplitLoop
    cases hi : IndexByte s sep with
    | none =>
      rw [hi] at key
      simp [key]
    | some m =>
      rw [hi] at key
      simp [key]

theorem regionCode_eq (r : GoString) :
    regionCode r = .ok (r.takeWhile (fun b => b != SP)) := by
  unfold regionCode
  rw [Split_head]

theorem takeWhile_beforeFirstSpace (r : GoString) :
    BeforeFirstSpace (r.takeWhile (fun b => b != SP)) r := by
  unfold BeforeFirstSpace
  induction r with
  | nil => simp
  | cons b rest ih =>
    rw [List.takeWhile_cons]
    by_cases hb : b = SP
    · subst hb
      simp
    · obtain ⟨h1, h2⟩ := ih
      have hb2 : (b != SP) = true := by simpa using hb
      simp only [hb2, if_true, List.mem_cons, not_or, List.cons_append]
      refine ⟨⟨fun h => hb h.symm, h1⟩, ?_⟩
      rcases h2 with h2 | h2
      · left
        rw [h2]
      · right
        exact (List.prefix_cons_inj b).mpr h2

theorem takeWhile_longest (r q : GoString) (hq : q <+: r) (hsp : SP ∉ q) :
    q <+: r.takeWhile (fun b => b != SP) := by
  induction r generalizing q with
  | nil =>
    simpa using hq
  | cons b rest ih =>
    cases q with
    | nil => exact List.nil_prefix
    | cons a q1 =>
      obtain ⟨hab, hq1⟩ := List.cons_prefix_cons.mp hq
      subst hab
      simp only [List.mem_cons, not_or] at hsp
      have hb2 : (a != SP) = true := by
        simpa using fun h => hsp.1 h.symm
      rw [List.takeWhile_cons]
      simp only [hb2, if_true]
      exact (List.prefix_cons_inj a).mpr (ih q1 hq1 hsp.2)

/-! ## The content helper -/

theorem loop_enumFrom (s : List GoString) (k : Nat) (c : List Content)
    (hlen : c.length = k + s.length) :
    assetStateForStringContents.loop (s.enumFrom k) c
      = .ok (c.take k ++ s.map (fun d => ⟨[], bytesOfString d⟩)) := by
  induction s generalizing k c with
  | nil =>
    simp only [List.enumFrom_nil, assetStateForStringContents.loop, List.map_nil,
      List.append_nil]
    rw [List.take_of_length_le]
    simp at hlen
    omega
  | cons d rest ih =>
    simp only [List.length_cons] at hlen
    have hk : k < c.length := by omega
    simp only [List.enumFrom_cons, assetStateForStringContents.loop, setIndex, hk, if_true]
    rw [ih (k + 1) _ (by simp; omega)]
    congr 1
    rw [List.take_succ, List.set_take, List.set_eq_of_length_le (by simp)]
    simp [hk]

theorem assetStateForStringContents_eq (s : List GoString) :
    assetStateForStringContents s = .ok (stateOfStrings s) := by
  unfold assetStateForStringContents stateOfStrings
  simp only [List.enum]
  rw [loop_enumFrom s 0 _ (by simp)]
  simp

/-! ## The prompt resolver and the three methods -/

theorem UserProvided.Generate_cases (env : Env) (p : UserProvided) :
    (∃ v, UserProvided.Generate env p [] = (some ⟨[⟨[], bytesOfString v⟩]⟩, none)) ∨
    (∃ e, UserProvided.Generate env p [] = (none, some e)) := by
  unfold UserProvided.Generate
  split
  · exact Or.inl ⟨_, rfl⟩
  · split
    · exact Or.inl ⟨_, rfl⟩
    · exact Or.inr ⟨_, rfl⟩

theorem queryUserForPlatform_resolves {env : Env} {v : GoString}
    (h : Resolves env Platform.queryUserForPlatform.prompt v) :
    Platform.queryUserForPlatform env
      = ⟨[Platform.queryUserForPlatform.prompt], .ok (v, none)⟩ := by
  obtain ⟨st, c0, h1, h2, h3⟩ := h
  simp only [Platform.queryUserForPlatform, h1, h2, h3]

theorem queryUserForPlatform_fails {env : Env} {e : GoError}
    (h : FailsWith env Platform.queryUserForPlatform.prompt e) :
    Platform.queryUserForPlatform env
      = ⟨[Platform.queryUserForPlatform.prompt], .ok (lit "", some e)⟩ := by
  unfold FailsWith at h
  rcases hg : UserProvided.Generate env Platform.queryUserForPlatform.prompt [] with ⟨a, b⟩
  rw [hg] at h
  simp only at h
  subst h
  simp only [Platform.queryUserForPlatform, hg]

theorem awsPlatform_resolves {env : Env} {r : GoString}
    (h : Resolves env Platform.awsPlatform.prompt r) :
    Platform.awsPlatform env
      = ⟨[Platform.awsPlatform.prompt],
          .ok (some (stateOfStrings [AWSPlatformType, r.takeWhile (fun b => b != SP)]),
            none)⟩ := by
  obtain ⟨st, c0, h1, h2, h3⟩ := h
  simp only [Platform.awsPlatform, h1, h2, h3, regionCode_eq, assetStateForStringContents_eq]

theorem awsPlatform_fails {env : Env} {e : GoError}
    (h : FailsWith env Platform.awsPlatform.prompt e) :
    Platform.awsPlatform env = ⟨[Platform.awsPlatform.prompt], .ok (none, some e)⟩ := by
  unfold FailsWith at h
  rcases hg : UserProvided.Generate env Platform.awsPlatform.prompt [] with ⟨a, b⟩
  rw [hg] at h
  simp only at h
  subst h
  simp only [Platform.awsPlatform, hg]

theorem libvirtPlatform_resolves {env : Env} {u : GoString}
    (h : Resolves env Platform.libvirtPlatform.prompt u) :
    Platform.libvirtPlatform env
      = ⟨[Platform.libvirtPlatform.prompt],
          .ok (some (stateOfStrings [LibvirtPlatformType, u]), none)⟩ := by
  obtain ⟨st, c0, h1, h2, h3⟩ := h
  simp only [Platform.libvirtPlatform, h1, h2, h3, assetStateForStringContents_eq]

theorem libvirtPlatform_fails {env : Env} {e : GoError}
    (h : FailsWith env Platform.libvirtPlatform.prompt e) :
    Platform.libvirtPlatform env
      = ⟨[Platform.libvirtPlatform.prompt], .ok (none, some e)⟩ := by
  unfold FailsWith at h
  rcases hg : UserProvided.Generate env Platform.libvirtPlatform.prompt [] with ⟨a, b⟩
  rw [hg] at h
  simp only at h
  subst h
  simp only [Platform.libvirtPlatform, hg]

theorem AWSPlatformType_ne_Libvirt : AWSPlatformType ≠ LibvirtPlatformType := by decide

theorem Generate_aws {env : Env} (deps : DepStates)
    (h : Resolves env Platform.queryUserForPlatform.prompt AWSPlatformType) :
    Platform.Generate env deps
      = (Platform.awsPlatform env).after [Platform.queryUserForPlatform.prompt] := by
  simp only [Platform.Generate, queryUserForPlatform_resolves h, if_true]

theorem Generate_libvirt {env : Env} (deps : DepStates)
    (h : Resolves env Platform.queryUserForPlatform.prompt LibvirtPlatformType) :
    Platform.Generate env deps
      = (Platform.libvirtPlatform env).after [Platform.queryUserForPlatform.prompt] := by
  simp only [Platform.Generate, queryUserForPlatform_resolves h,
    AWSPlatformType_ne_Libvirt.symm, if_true, if_false]

theorem Generate_unknown {env : Env} (deps : DepStates) {p : GoString}
    (h : Resolves env Platform.queryUserForPlatform.prompt p)
    (h1 : p ≠ AWSPlatformType) (h2 : p ≠ LibvirtPlatformType) :
    Platform.Generate env deps
      = ⟨[Platform.queryUserForPlatform.prompt],
          .ok (none, some (fmtErrorf env (lit "unknown platform type ") p))⟩ := by
  simp only [Platform.Generate, queryUserForPlatform_resolves h, h1, h2, if_false]

theorem Generate_fails {env : Env} (deps : DepStates) {e : GoError}
    (h : FailsWith env Platform.queryUserForPlatform.prompt e) :
    Platform.Generate env deps
      = ⟨[Platform.queryUserForPlatform.prompt], .ok (none, some e)⟩ := by
  simp only [Platform.Generate, queryUserForPlatform_fails h]

theorem awsPlatform_resolved (env : Env) :
    (Platform.awsPlatform env).resolved = [Platform.awsPlatform.prompt] := by
  unfold Platform.awsPlatform
  simp only
  repeat' split
  all_goals rfl

theorem libvirtPlatform_resolved (env : Env) :
    (Platform.libvirtPlatform env).resolved = [Platform.libvirtPlatform.prompt] := by
  unfold Platform.libvirtPlatform
  simp only
  repeat' split
  all_goals rfl

theorem Resolves_congr {env env' : Env} {p : UserProvided} {v : GoString}
    (heq : UserProvided.Generate env' p [] = UserProvided.Generate env p [])
    (h : Resolves env p v) : Resolves env' p v := by
  obtain ⟨st, c0, h1, h2, h3⟩ := h
  exact ⟨st, c0, heq.trans h1, h2, h3⟩

/-! ## Properties of `Generate` -/

/-- C1: for each platform identifier `P` of `validPlatforms`, when the platform
resolution returns `P` and the resolution of the sub-flow of `P` succeeds (the region
for aws, the URI for libvirt), `Generate` returns no error and a State with exactly
two Contents, the first of which holds the bytes of `P`. -/
theorem generate_valid_platform (env : Env) (deps : DepStates) (P : GoString)
    (hP : P ∈ validPlatforms)
    (hplat : Resolves env Platform.queryUserForPlatform.prompt P)
    (haws : P = AWSPlatformType → ∃ r, Resolves env Platform.awsPlatform.prompt r)
    (hlib : P = LibvirtPlatformType → ∃ u, Resolves env Platform.libvirtPlatform.prompt u) :
    ∃ st, (Platform.Generate env deps).outcome = .ok (some st, none) ∧
      st.Contents.length = 2 ∧
      (st.Contents[0]?).map (fun c => c.Data) = some (bytesOfString P) := by
  simp only [validPlatforms, List.mem_cons, List.mem_singleton, List.not_mem_nil,
    or_false] at hP
  rcases hP with hP | hP
  · subst hP
    obtain ⟨r, hr⟩ := haws rfl
    rw [Generate_aws deps hplat, awsPlatform_resolves hr]
    exact ⟨_, rfl, rfl, rfl⟩
  · subst hP
    obtain ⟨u, hu⟩ := hlib rfl
    rw [Generate_libvirt deps hplat, libvirtPlatform_resolves hu]
    exact ⟨_, rfl, rfl, rfl⟩

/-- Witness of C1: the operator chooses libvirt and gives a URI. -/
theorem generate_valid_platform_witness :
    ∃ st, (Platform.Generate
        (operatorEnv (.ok (lit "libvirt")) (.error noChannel) (.ok (lit "qemu:///system")))
        []).outcome = .ok (some st, none) ∧
      st.Contents.length = 2 ∧
      (st.Contents[0]?).map (fun c => c.Data) = some (bytesOfString (lit "libvirt")) :=
  generate_valid_platform
    (operatorEnv (.ok (lit "libvirt")) (.error noChannel) (.ok (lit "qemu:///system")))
    [] (lit "libvirt") (by decide) ⟨_, _, rfl, rfl, rfl⟩
    (fun h => absurd h (by decide)) (fun _ => ⟨lit "qemu:///system", _, _, rfl, rfl, rfl⟩)

/-- C2: when the platform resolution returns a string `p` that is neither "aws" nor
"libvirt", `Generate` returns a nil State and the error whose message is
"unknown platform type " followed by the quoted form of `p`; the platform resolution
is the only resolution performed, so neither the region nor the URI is resolved. -/
theorem generate_unknown_platform (env : Env) (deps : DepStates) (p : GoString)
    (hplat : Resolves env Platform.queryUserForPlatform.prompt p)
    (haws : p ≠ lit "aws") (hlib : p ≠ lit "libvirt") :
    (Platform.Generate env deps).outcome
        = .ok (none, some ⟨lit "unknown platform type " ++ env.Quote p⟩) ∧
      (Platform.Generate env deps).resolved = [Platform.queryUserForPlatform.prompt] ∧
      Platform.awsPlatform.prompt ∉ (Platform.Generate env deps).resolved ∧
      Platform.libvirtPlatform.prompt ∉ (Platform.Generate env deps).resolved := by
  rw [Generate_unknown deps hplat haws hlib]
  refine ⟨rfl, rfl, ?_, ?_⟩
  · show Platform.awsPlatform.prompt ∉ [Platform.queryUserForPlatform.prompt]
    decide
  · show Platform.libvirtPlatform.prompt ∉ [Platform.queryUserForPlatform.prompt]
    decide

/-- Witness of C2: the override variable of the platform is set to "gcp", and the
variables of the region and of the URI are set too. -/
theorem generate_unknown_platform_witness :
    (Platform.Generate
        (scriptedEnv (some (lit "gcp")) (some (lit "us-east-1")) (some (lit "qemu:///system")))
        []).outcome
        = .ok (none, some ⟨lit "unknown platform type \"gcp\""⟩) ∧
      (Platform.Generate
        (scriptedEnv (some (lit "gcp")) (some (lit "us-east-1")) (some (lit "qemu:///system")))
        []).resolved = [Platform.queryUserForPlatform.prompt] ∧
      Platform.awsPlatform.prompt ∉ (Platform.Generate
        (scriptedEnv (some (lit "gcp")) (some (lit "us-east-1")) (some (lit "qemu:///system")))
        []).resolved ∧
      Platform.libvirtPlatform.prompt ∉ (Platform.Generate
        (scriptedEnv (some (lit "gcp")) (some (lit "us-east-1")) (some (lit "qemu:///system")))
        []).resolved :=
  generate_unknown_platform
    (scriptedEnv (some (lit "gcp")) (some (lit "us-east-1")) (some (lit "qemu:///system")))
    [] (lit "gcp") ⟨_, _, rfl, rfl, rfl⟩ (by decide) (by decide)

/-- C3: in the aws sub-flow, for every resolved region value `r`, the returned State
is ["aws", c] where `c` is the part of `r` before the first space, the longest prefix
of `r` that contains no space; for "eu-west-1 (Ireland)" it is "eu-west-1". -/
theorem aws_region_code (env : Env) (deps : DepStates) (r : GoString)
    (hplat : Resolves env Platform.queryUserForPlatform.prompt (lit "aws"))
    (hr : Resolves env Platform.awsPlatform.prompt r) :
    ∃ c, (Platform.Generate env deps).outcome
          = .ok (some ⟨[⟨[], bytesOfString (lit "aws")⟩, ⟨[], bytesOfString c⟩]⟩, none) ∧
      (Platform.awsPlatform env).outcome
          = .ok (some ⟨[⟨[], bytesOfString (lit "aws")⟩, ⟨[], bytesOfString c⟩]⟩, none) ∧
      c <+: r ∧ BeforeFirstSpace c r ∧
      (∀ q : GoString, q <+: r → SP ∉ q → q <+: c) ∧
      (r = lit "eu-west-1 (Ireland)" → c = lit "eu-west-1") := by
  refine ⟨r.takeWhile (fun b => b != SP), ?_, ?_, List.takeWhile_prefix _,
    takeWhile_beforeFirstSpace r, fun q hq hsp => takeWhile_longest r q hq hsp, ?_⟩
  · rw [Generate_aws deps hplat, awsPlatform_resolves hr]
    rfl
  · rw [awsPlatform_resolves hr]
    rfl
  · intro h
    subst h
    decide

/-- Witness of C3: the region override is set to "eu-west-1 (Ireland)". -/
theorem aws_region_code_witness :
    ∃ c, (Platform.Generate
          (scriptedEnv (some (lit "aws")) (some (lit "eu-west-1 (Ireland)")) none) []).outcome
          = .ok (some ⟨[⟨[], bytesOfString (lit "aws")⟩, ⟨[], bytesOfString c⟩]⟩, none) ∧
      (Platform.awsPlatform
          (scriptedEnv (some (lit "aws")) (some (lit "eu-west-1 (Ireland)")) none)).outcome
          = .ok (some ⟨[⟨[], bytesOfString (lit "aws")⟩, ⟨[], bytesOfString c⟩]⟩, none) ∧
      c <+: lit "eu-west-1 (Ireland)" ∧ BeforeFirstSpace c (lit "eu-west-1 (Ireland)") ∧
      (∀ q : GoString, q <+: lit "eu-west-1 (Ireland)" → SP ∉ q → q <+: c) ∧
      (lit "eu-west-1 (Ireland)" = lit "eu-west-1 (Ireland)" → c = lit "eu-west-1") :=
  aws_region_code
    (scriptedEnv (some (lit "aws")) (some (lit "eu-west-1 (Ireland)")) none) []
    (lit "eu-west-1 (Ireland)") ⟨_, _, rfl, rfl, rfl⟩ ⟨_, _, rfl, rfl, rfl⟩

/-- C4: the region-code extraction returns every string that contains no space
unchanged ("us-east-1" gives "us-east-1"), and it is idempotent: for every string
`r` it yields a code, and extracting from that code yields the same code. -/
theorem regionCode_fixed_and_idempotent :
    (∀ r : GoString, SP ∉ r → regionCode r = .ok r) ∧
    (∀ r : GoString, ∃ c, regionCode r = .ok c ∧ regionCode c = .ok c) ∧
    regionCode (lit "us-east-1") = .ok (lit "us-east-1") := by
  have fixed : ∀ r : GoString, SP ∉ r → regionCode r = .ok r := by
    intro r hr
    rw [regionCode_eq]
    congr 1
    rw [List.takeWhile_eq_self_iff]
    intro b hb
    simp only [bne_iff_ne, ne_eq]
    intro h
    exact hr (h ▸ hb)
  refine ⟨fixed, ?_, fixed _ (by decide)⟩
  intro r
  exact ⟨_, regionCode_eq r, fixed _ (takeWhile_beforeFirstSpace r).1⟩

/-- Witness of C4: the bare code "us-east-1" has no space and is returned unchanged. -/
theorem regionCode_fixed_and_idempotent_witness :
    SP ∉ lit "us-east-1" ∧ regionCode (lit "us-east-1") = .ok (lit "us-east-1") :=
  ⟨by decide, regionCode_fixed_and_idempotent.1 (lit "us-east-1") (by decide)⟩

/-- C5: in the libvirt sub-flow, for every resolved URI string `u`, with spaces or
empty as well, `Generate` returns the State ["libvirt", u] whose second Content
holds exactly the bytes of `u`: nothing is split or trimmed. -/
theorem libvirt_uri_verbatim (env : Env) (deps : DepStates) (u : GoString)
    (hplat : Resolves env Platform.queryUserForPlatform.prompt (lit "libvirt"))
    (hu : Resolves env Platform.libvirtPlatform.prompt u) :
    (Platform.Generate env deps).outcome
        = .ok (some ⟨[⟨[], bytesOfString (lit "libvirt")⟩, ⟨[], bytesOfString u⟩]⟩, none) ∧
      (Platform.libvirtPlatform env).outcome
        = .ok (some ⟨[⟨[], bytesOfString (lit "libvirt")⟩, ⟨[], bytesOfString u⟩]⟩, none) := by
  constructor
  · rw [Generate_libvirt deps hplat, libvirtPlatform_resolves hu]
    rfl
  · rw [libvirtPlatform_resolves hu]
    rfl

/-- Witness of C5: the URI override holds a string with spaces, which the region
extraction would cut. -/
theorem libvirt_uri_verbatim_witness :
    (Platform.Generate
        (scriptedEnv (some (lit "libvirt")) none (some (lit " qemu uri (x) "))) []).outcome
        = .ok (some ⟨[⟨[], bytesOfString (lit "libvirt")⟩,
            ⟨[], bytesOfString (lit " qemu uri (x) ")⟩]⟩, none) ∧
      (Platform.libvirtPlatform
        (scriptedEnv (some (lit "libvirt")) none (some (lit " qemu uri (x) ")))).outcome
        = .ok (some ⟨[⟨[], bytesOfString (lit "libvirt")⟩,
            ⟨[], bytesOfString (lit " qemu uri (x) ")⟩]⟩, none) :=
  libvirt_uri_verbatim
    (scriptedEnv (some (lit "libvirt")) none (some (lit " qemu uri (x) "))) []
    (lit " qemu uri (x) ") ⟨_, _, rfl, rfl, rfl⟩ ⟨_, _, rfl, rfl, rfl⟩

/-- C6: for every list of strings `s` of length `n`, `assetStateForStringContents`
does not fail and returns a State with exactly `n` Contents such that, for every
`i < n`, the Data of Content `i` read back as a string is `s[i]` and its Name is
empty; for the empty list the State has no Content. -/
theorem assetStateForStringContents_roundtrip (s : List GoString) :
    ∃ st, assetStateForStringContents s = .ok st ∧
      st.Contents.length = s.length ∧
      (∀ (i : Nat) (h : i < s.length), ∃ c, st.Contents[i]? = some c ∧
        stringOfBytes c.Data = s[i] ∧ c.Name = []) ∧
      (s = [] → st.Contents = []) := by
  refine ⟨stateOfStrings s, assetStateForStringContents_eq s, ?_, ?_, ?_⟩
  · simp [stateOfStrings]
  · intro i h
    refine ⟨⟨[], bytesOfString s[i]⟩, ?_, rfl, rfl⟩
    simp [stateOfStrings, h]
  · intro h
    subst h
    rfl

/-- Witness of C6: the two strings of an aws State, read back at position 1. -/
theorem assetStateForStringContents_roundtrip_witness :
    ∃ st, assetStateForStringContents [lit "aws", lit "eu-west-1"] = .ok st ∧
      st.Contents.length = 2 ∧
      ∃ c, st.Contents[1]? = some c ∧ stringOfBytes c.Data = lit "eu-west-1" ∧
        c.Name = [] := by
  obtain ⟨st, h1, h2, h3, _⟩ :=
    assetStateForStringContents_roundtrip [lit "aws", lit "eu-west-1"]
  exact ⟨st, h1, h2, h3 1 (by decide)⟩

/-- C7: an error `e` of a prompt resolution (of the platform, of the region once aws
is chosen, of the URI once libvirt is chosen) is returned by `Generate` as it is,
with a nil State; and every call of `Generate` returns either a State and a nil
error, or a nil State and an error. -/
theorem generate_error_propagation (env : Env) (deps : DepStates) :
    (∀ e, FailsWith env Platform.queryUserForPlatform.prompt e →
      (Platform.Generate env deps).outcome = .ok (none, some e)) ∧
    (∀ e, Resolves env Platform.queryUserForPlatform.prompt (lit "aws") →
      FailsWith env Platform.awsPlatform.prompt e →
      (Platform.Generate env deps).outcome = .ok (none, some e)) ∧
    (∀ e, Resolves env Platform.queryUserForPlatform.prompt (lit "libvirt") →
      FailsWith env Platform.libvirtPlatform.prompt e →
      (Platform.Generate env deps).outcome = .ok (none, some e)) ∧
    ((∃ st, (Platform.Generate env deps).outcome = .ok (some st, none)) ∨
      (∃ e, (Platform.Generate env deps).outcome = .ok (none, some e))) := by
  have hfail : ∀ e, FailsWith env Platform.queryUserForPlatform.prompt e →
      (Platform.Generate env deps).outcome = .ok (none, some e) := by
    intro e h
    rw [Generate_fails deps h]
  have haws : ∀ e, Resolves env Platform.queryUserForPlatform.prompt (lit "aws") →
      FailsWith env Platform.awsPlatform.prompt e →
      (Platform.Generate env deps).outcome = .ok (none, some e) := by
    intro e hp h
    rw [Generate_aws deps hp, awsPlatform_fails h]
    rfl
  have hlib : ∀ e, Resolves env Platform.queryUserForPlatform.prompt (lit "libvirt") →
      FailsWith env Platform.libvirtPlatform.prompt e →
      (Platform.Generate env deps).outcome = .ok (none, some e) := by
    intro e hp h
    rw [Generate_libvirt deps hp, libvirtPlatform_fails h]
    rfl
  refine ⟨hfail, haws, hlib, ?_⟩
  rcases UserProvided.Generate_cases env Platform.queryUserForPlatform.prompt with
    ⟨p, hp⟩ | ⟨e, he⟩
  · have hres : Resolves env Platform.queryUserForPlatform.prompt p := ⟨_, _, hp, rfl, rfl⟩
    by_cases h1 : p = AWSPlatformType
    · subst h1
      rcases UserProvided.Generate_cases env Platform.awsPlatform.prompt with
        ⟨r, hr⟩ | ⟨e, he⟩
      · left
        rw [Generate_aws deps hres, awsPlatform_resolves ⟨_, _, hr, rfl, rfl⟩]
        exact ⟨_, rfl⟩
      · right
        exact ⟨e, haws e hres (by rw [FailsWith, he])⟩
    · by_cases h2 : p = LibvirtPlatformType
      · subst h2
        rcases UserProvided.Generate_cases env Platform.libvirtPlatform.prompt with
          ⟨u, hu⟩ | ⟨e, he⟩
        · left
          rw [Generate_libvirt deps hres, libvirtPlatform_resolves ⟨_, _, hu, rfl, rfl⟩]
          exact ⟨_, rfl⟩
        · right
          exact ⟨e, hlib e hres (by rw [FailsWith, he])⟩
      · right
        rw [Generate_unknown deps hres h1 h2]
        exact ⟨_, rfl⟩
  · right
    exact ⟨e, hfail e (by rw [FailsWith, he])⟩

/-- Witness of C7: aws is chosen by its override variable, the region variable is
not set and there is no channel to the operator; the error of the region resolution
is what `Generate` returns. -/
theorem generate_error_propagation_witness :
    FailsWith (scriptedEnv (some (lit "aws")) none none) Platform.awsPlatform.prompt
        noChannel ∧
      (Platform.Generate (scriptedEnv (some (lit "aws")) none none) []).outcome
        = .ok (none, some noChannel) :=
  ⟨rfl, (generate_error_propagation (scriptedEnv (some (lit "aws")) none none) []).2.1
    noChannel ⟨_, _, rfl, rfl, rfl⟩ rfl⟩

/-- C8: `Generate` runs exactly one sub-flow. When the platform resolution returns
"aws", two runs whose platform and region resolutions agree give the same result,
whatever the URI resolution would give, and the resolutions performed are the
platform and the region; the same holds for "libvirt" with the URI in the place of the
region. The result does not depend on the dependency mapping. -/
theorem generate_single_subflow (env env' : Env) (deps deps' : DepStates) :
    Platform.Generate env deps = Platform.Generate env deps' ∧
    (Resolves env Platform.queryUserForPlatform.prompt (lit "aws") →
      UserProvided.Generate env' Platform.queryUserForPlatform.prompt []
        = UserProvided.Generate env Platform.queryUserForPlatform.prompt [] →
      UserProvided.Generate env' Platform.awsPlatform.prompt []
        = UserProvided.Generate env Platform.awsPlatform.prompt [] →
      Platform.Generate env' deps' = Platform.Generate env deps ∧
        (Platform.Generate env deps).resolved
          = [Platform.queryUserForPlatform.prompt, Platform.awsPlatform.prompt]) ∧
    (Resolves env Platform.queryUserForPlatform.prompt (lit "libvirt") →
      UserProvided.Generate env' Platform.queryUserForPlatform.prompt []
        = UserProvided.Generate env Platform.queryUserForPlatform.prompt [] →
      UserProvided.Generate env' Platform.libvirtPlatform.prompt []
        = UserProvided.Generate env Platform.libvirtPlatform.prompt [] →
      Platform.Generate env' deps' = Platform.Generate env deps ∧
        (Platform.Generate env deps).resolved
          = [Platform.queryUserForPlatform.prompt, Platform.libvirtPlatform.prompt]) := by
  refine ⟨rfl, ?_, ?_⟩
  · intro hp hq hr
    have hsub : Platform.awsPlatform env' = Platform.awsPlatform env := by
      simp only [Platform.awsPlatform, hr]
    rw [Generate_aws deps' (Resolves_congr hq hp), Generate_aws deps hp, hsub]
    refine ⟨rfl, ?_⟩
    simp only [Exec.after, awsPlatform_resolved, List.singleton_append]
  · intro hp hq hr
    have hsub : Platform.libvirtPlatform env' = Platform.libvirtPlatform env := by
      simp only [Platform.libvirtPlatform, hr]
    rw [Generate_libvirt deps' (Resolves_congr hq hp), Generate_libvirt deps hp, hsub]
    refine ⟨rfl, ?_⟩
    simp only [Exec.after, libvirtPlatform_resolved, List.singleton_append]

/-- Witness of C8: two runs that choose aws and the same region; in one the URI
resolution would succeed, in the other it would fail, and the dependency mappings
differ. -/
theorem generate_single_subflow_witness :
    Platform.Generate
        (operatorEnv (.ok (lit "aws")) (.ok (lit "eu-west-1 (Ireland)")) (.error noChannel))
        [(7, none)]
      = Platform.Generate
        (operatorEnv (.ok (lit "aws")) (.ok (lit "eu-west-1 (Ireland)"))
          (.ok (lit "qemu:///system"))) [] ∧
      (Platform.Generate
        (operatorEnv (.ok (lit "aws")) (.ok (lit "eu-west-1 (Ireland)"))
          (.ok (lit "qemu:///system"))) []).resolved
        = [Platform.queryUserForPlatform.prompt, Platform.awsPlatform.prompt] :=
  (generate_single_subflow
    (operatorEnv (.ok (lit "aws")) (.ok (lit "eu-west-1 (Ireland)"))
      (.ok (lit "qemu:///system")))
    (operatorEnv (.ok (lit "aws")) (.ok (lit "eu-west-1 (Ireland)")) (.error noChannel))
    [] [(7, none)]).2.1 ⟨_, _, rfl, rfl, rfl⟩ rfl rfl

/-- C9: the region catalog of the aws sub-flow is well formed. Every option is a
non-empty region code without space, one space, and a label between parentheses, and
the extraction yields that code; the default "us-east-1 (N. Virginia)" is one of the
options; the extraction is injective on the catalog; the default yields the code
"us-east-1". -/
theorem region_catalog_well_formed :
    Platform.awsPlatform.prompt.Prompt
        = Prompt.Select (lit "Region") (lit "The AWS region to be used for installation.")
            (lit "us-east-1 (N. Virginia)") Platform.awsPlatform.options ∧
    (∀ o ∈ Platform.awsPlatform.options, ∃ code label : GoString,
      code ≠ [] ∧ SP ∉ code ∧ label ≠ [] ∧
      o = code ++ lit " " ++ lit "(" ++ label ++ lit ")" ∧ regionCode o = .ok code) ∧
    lit "us-east-1 (N. Virginia)" ∈ Platform.awsPlatform.options ∧
    (∀ o1 ∈ Platform.awsPlatform.options, ∀ o2 ∈ Platform.awsPlatform.options,
      regionCode o1 = regionCode o2 → o1 = o2) ∧
    regionCode (lit "us-east-1 (N. Virginia)") = .ok (lit "us-east-1") := by
  have shape : ∀ o ∈ Platform.awsPlatform.options,
      o.takeWhile (fun b => b != SP) ≠ [] ∧ SP ∉ o.takeWhile (fun b => b != SP) ∧
      (o.drop ((o.takeWhile (fun b => b != SP)).length + 2)).dropLast ≠ [] ∧
      o = o.takeWhile (fun b => b != SP) ++ lit " " ++ lit "(" ++
        (o.drop ((o.takeWhile (fun b => b != SP)).length + 2)).dropLast ++ lit ")" := by
    decide
  have inj : ∀ o1 ∈ Platform.awsPlatform.options, ∀ o2 ∈ Platform.awsPlatform.options,
      o1.takeWhile (fun b => b != SP) = o2.takeWhile (fun b => b != SP) → o1 = o2 := by
    decide
  refine ⟨rfl, ?_, by decide, ?_, ?_⟩
  · intro o ho
    obtain ⟨h1, h2, h3, h4⟩ := shape o ho
    exact ⟨_, _, h1, h2, h3, h4, regionCode_eq o⟩
  · intro o1 h1 o2 h2 h
    rw [regionCode_eq, regionCode_eq] at h
    exact inj o1 h1 o2 h2 (Except.ok.inj h)
  · rw [regionCode_eq]
    congr 1

/-- Witness of C9: the option "sa-east-1 (São Paulo)" of the catalog. -/
theorem region_catalog_well_formed_witness :
    ∃ code label : GoString, code ≠ [] ∧ SP ∉ code ∧ label ≠ [] ∧
      lit "sa-east-1 (São Paulo)" = code ++ lit " " ++ lit "(" ++ label ++ lit ")" ∧
      regionCode (lit "sa-east-1 (São Paulo)") = .ok code :=
  region_catalog_well_formed.2.1 (lit "sa-east-1 (São Paulo)") (by decide)

/-- C10: the region-code extraction never fails. For every string `r` the split on
" " has at least one element, so element 0 exists and the extraction returns it; and
when the resolved region is empty or begins with a space, the aws sub-flow reports no
error and returns the State ["aws", ""], whose region code is the empty string. -/
theorem regionCode_never_fails (r : GoString) :
    1 ≤ (Split r SP).length ∧
    (∃ c, (Split r SP)[0]? = some c ∧ regionCode r = .ok c) ∧
    (∀ (env : Env) (deps : DepStates),
      Resolves env Platform.queryUserForPlatform.prompt (lit "aws") →
      Resolves env Platform.awsPlatform.prompt r →
      (r = [] ∨ r.head? = some SP) →
      (Platform.Generate env deps).outcome
          = .ok (some ⟨[⟨[], bytesOfString (lit "aws")⟩, ⟨[], bytesOfString (lit "")⟩]⟩, none) ∧
        (Platform.awsPlatform env).outcome
          = .ok (some ⟨[⟨[], bytesOfString (lit "aws")⟩, ⟨[], bytesOfString (lit "")⟩]⟩,
              none)) := by
  refine ⟨?_, ⟨_, Split_head r SP, regionCode_eq r⟩, ?_⟩
  · have h := Split_ne_nil r SP
    cases hs : Split r SP with
    | nil => exact absurd hs h
    | cons a rest => simp
  · intro env deps hplat hr hmal
    have hcode : r.takeWhile (fun b => b != SP) = [] := by
      rcases hmal with h | h
      · subst h
        rfl
      · cases r with
        | nil => rfl
        | cons b rest =>
          simp only [List.head?_cons, Option.some.injEq] at h
          subst h
          rfl
    rw [Generate_aws deps hplat, awsPlatform_resolves hr, hcode]
    exact ⟨rfl, rfl⟩

/-- Witness of C10: the region override is set to " (Ohio)", which begins with a
space. -/
theorem regionCode_never_fails_witness :
    (Platform.Generate (scriptedEnv (some (lit "aws")) (some (lit " (Ohio)")) none) []).outcome
        = .ok (some ⟨[⟨[], bytesOfString (lit "aws")⟩, ⟨[], bytesOfString (lit "")⟩]⟩, none) ∧
      (Platform.awsPlatform (scriptedEnv (some (lit "aws")) (some (lit " (Ohio)")) none)).outcome
        = .ok (some ⟨[⟨[], bytesOfString (lit "aws")⟩, ⟨[], bytesOfString (lit "")⟩]⟩, none) :=
  (regionCode_never_fails (lit " (Ohio)")).2.2
    (scriptedEnv (some (lit "aws")) (some (lit " (Ohio)")) none) []
    ⟨_, _, rfl, rfl, rfl⟩ ⟨_, _, rfl, rfl, rfl⟩ (Or.inr (by decide))

end installconfig
